import Mathlib

/-!
Verification of the DC cable sizing engine of the Kabelquerschnitt repository.

The repository carries the engine on three surfaces: a Go CLI (`main.go`)
and two JavaScript web variants (`script.js` in two revisions, the second
adding ampacity and fuse logic).  The constants and most functions agree
across the surfaces; where they differ (the standard-size resolver and the
resistivity reference temperature) the embedding keeps both versions, the
JavaScript engine in namespace `Web` and the Go engine in namespace `Cli`.

Numeric values are embedded as exact rationals; the one place where IEEE
floating-point behaviour itself is at stake (division by a zero maximum
voltage drop) uses an explicit extended-value type `FloatVal` that records
the sign of the infinite quotient produced by the hardware division.
-/

/-- Installation methods, the three enumerated variants of the catalog. -/
inductive InstallationMethod where
  | inAir
  | conduit
  | isolated
deriving DecidableEq

/-- Temperature adjustment (°C) per installation method:
air 0, conduit +10, isolated +20 (identical across all three surfaces). -/
def installationTempAdjustment : InstallationMethod → ℚ
  | .inAir => 0
  | .conduit => 10
  | .isolated => 20

/-- Conductor material record: the Go `CableMaterial` carries name,
resistivity at 20 °C and temperature coefficient; the JavaScript catalog
additionally carries weight per metre per mm².  One record serves both. -/
structure CableMaterial where
  name : String
  resistivity20C : ℚ
  tempCoefficient : ℚ
  weightPerMm2PerM : ℚ
deriving DecidableEq

/-- Copper: 0.0175 Ω·mm²/m at 20 °C, α = 0.00393 per °C, 8.96 g/m per mm². -/
def copper : CableMaterial :=
  { name := "Copper", resistivity20C := 175/10000, tempCoefficient := 393/100000,
    weightPerMm2PerM := 896/100 }

/-- Aluminum: 0.0283 Ω·mm²/m at 20 °C, α = 0.00403 per °C, 2.70 g/m per mm². -/
def aluminum : CableMaterial :=
  { name := "Aluminum", resistivity20C := 283/10000, tempCoefficient := 403/100000,
    weightPerMm2PerM := 270/100 }

/-- Wire (insulation) type with its maximum temperature rating (°C). -/
structure WireType where
  name : String
  maxTemp : ℚ
deriving DecidableEq

def flry : WireType := { name := "FLRY", maxTemp := 105 }
def thhn : WireType := { name := "THHN", maxTemp := 90 }
def thwn : WireType := { name := "THWN", maxTemp := 75 }
def xlpe : WireType := { name := "XLPE", maxTemp := 90 }
def pvc : WireType := { name := "PVC", maxTemp := 70 }
def silicon : WireType := { name := "Silicone", maxTemp := 200 }
def genericWire : WireType := { name := "Generic", maxTemp := 90 }

/-- Standard metric cable sizes (mm²), ascending (identical on all surfaces). -/
def standardMetricSizes : List ℚ :=
  [1/2, 3/4, 1, 3/2, 5/2, 4, 6, 10, 16, 25, 35, 50, 70, 95, 120, 150, 185, 240]

/-- AWG entry: label and cross-sectional area in mm². -/
structure AWGSize where
  label : String
  area : ℚ
deriving DecidableEq

/-- AWG catalog, ascending by area (identical on all surfaces). -/
def awgSizes : List AWGSize :=
  [⟨"18", 823/1000⟩, ⟨"16", 1309/1000⟩, ⟨"14", 2081/1000⟩, ⟨"12", 3309/1000⟩,
   ⟨"10", 5261/1000⟩, ⟨"8", 8367/1000⟩, ⟨"6", 1330/100⟩, ⟨"4", 2115/100⟩,
   ⟨"2", 3362/100⟩, ⟨"1", 4241/100⟩, ⟨"1/0", 5349/100⟩, ⟨"2/0", 6743/100⟩,
   ⟨"3/0", 8501/100⟩, ⟨"4/0", 1072/10⟩]

/-- Effective operating temperature: ambient plus the installation
adjustment (`calculateEffectiveTemp`, identical on all three surfaces). -/
def calculateEffectiveTemp (ambientTempCelsius : ℚ) (installation : InstallationMethod) : ℚ :=
  ambientTempCelsius + installationTempAdjustment installation

/-- Extended value type recording the outcome of the final IEEE division:
a finite quotient, a signed infinity, or NaN.  Finite arithmetic on the
operands is exact here (modelled in ℚ); only the zero-denominator
behaviour of the hardware division is made explicit. -/
inductive FloatVal where
  | fin (q : ℚ)
  | inf
  | negInf
  | nan
deriving DecidableEq

namespace Cli

/-- Reference temperature of the Go surface (and of the first web surface). -/
def referenceTemp : ℚ := 20

/-- Go `calculateResistivityAtTemp`:
ρ(T) = ρ(20 °C) × (1 + α × (T − 20)). -/
def calculateResistivityAtTemp (material : CableMaterial) (tempCelsius : ℚ) : ℚ :=
  material.resistivity20C * (1 + material.tempCoefficient * (tempCelsius - referenceTemp))

/-- Go `calculateCableArea`:
A = (I × ρ(T_eff) × L × distanceFactor) / (V × p/100), exact rationals. -/
def calculateCableArea (voltage current length maxVoltageDropPercent : ℚ)
    (material : CableMaterial) (roundTrip : Bool)
    (ambientTempCelsius : ℚ) (installation : InstallationMethod) : ℚ :=
  let maxVoltageDrop := voltage * (maxVoltageDropPercent / 100)
  let distanceFactor : ℚ := if roundTrip then 2 else 1
  let effectiveTemp := calculateEffectiveTemp ambientTempCelsius installation
  let resistivity := calculateResistivityAtTemp material effectiveTemp
  (current * resistivity * length * distanceFactor) / maxVoltageDrop

/-- Go `calculateCableArea` with the final division modelled as the IEEE
float division it is in the source: the function performs no guard, so a
zero `maxVoltageDrop` produces a signed infinity (or NaN for 0/0) rather
than an error.  Finite operands are exact rationals. -/
def calculateCableAreaFloat (voltage current length maxVoltageDropPercent : ℚ)
    (material : CableMaterial) (roundTrip : Bool)
    (ambientTempCelsius : ℚ) (installation : InstallationMethod) : FloatVal :=
  let maxVoltageDrop := voltage * (maxVoltageDropPercent / 100)
  let distanceFactor : ℚ := if roundTrip then 2 else 1
  let effectiveTemp := calculateEffectiveTemp ambientTempCelsius installation
  let resistivity := calculateResistivityAtTemp material effectiveTemp
  let numerator := current * resistivity * length * distanceFactor
  if maxVoltageDrop = 0 then
    if numerator = 0 then .nan else if 0 < numerator then .inf else .negInf
  else .fin (numerator / maxVoltageDrop)

/-- Go `ValidateWireTemperature`.  The Go function returns a validity flag
and a message string; the message is modelled by whether it is non-empty
(the first component is `isValid`, the second is `message ≠ ""`). -/
def ValidateWireTemperature (effectiveTempCelsius : ℚ) (wireType : WireType) : Bool × Bool :=
  if wireType.maxTemp < effectiveTempCelsius then (false, true)
  else if wireType.maxTemp * (9/10) < effectiveTempCelsius then (true, true)
  else (true, false)

/-- `math.MaxFloat64`, the initial `minDiff` of the Go resolvers, exactly:
(2 − 2⁻⁵²) · 2¹⁰²³. -/
def maxFloat64 : ℚ := 2^1024 - 2^971

/-- Loop body of Go `findClosestMetricSize`: scans the size table keeping
the entry with the strictly smallest absolute difference. -/
def findClosestMetricLoop (requiredArea : ℚ) :
    List ℚ → ℚ × ℚ → ℚ × ℚ
  | [], acc => acc
  | size :: rest, (closestSize, minDiff) =>
      if |size - requiredArea| < minDiff then
        findClosestMetricLoop requiredArea rest (size, |size - requiredArea|)
      else
        findClosestMetricLoop requiredArea rest (closestSize, minDiff)

/-- Go `findClosestMetricSize`: minimum-absolute-difference search over the
metric table, started from `closestSize = 0`, `minDiff = math.MaxFloat64`.
Returns (size, |size − requiredArea|). -/
def findClosestMetricSize (requiredArea : ℚ) : ℚ × ℚ :=
  findClosestMetricLoop requiredArea standardMetricSizes (0, maxFloat64)

/-- Loop body of Go `findClosestAWG`. -/
def findClosestAWGLoop (requiredArea : ℚ) :
    List AWGSize → String × ℚ × ℚ → String × ℚ × ℚ
  | [], acc => acc
  | awg :: rest, (closestLabel, closestArea, minDiff) =>
      if |awg.area - requiredArea| < minDiff then
        findClosestAWGLoop requiredArea rest (awg.label, awg.area, |awg.area - requiredArea|)
      else
        findClosestAWGLoop requiredArea rest (closestLabel, closestArea, minDiff)

/-- Go `findClosestAWG`: minimum-absolute-difference search over the AWG
table.  Returns (label, area, |area − requiredArea|). -/
def findClosestAWG (requiredArea : ℚ) : String × ℚ × ℚ :=
  findClosestAWGLoop requiredArea awgSizes ("", 0, maxFloat64)

end Cli

namespace Web

/-- Loop of the web `findClosestMetricSize`: return the first (hence
smallest) standard size ≥ the required area, with `diff = size − required`. -/
def findClosestMetricLoop (requiredArea : ℚ) : List ℚ → Option (ℚ × ℚ)
  | [] => none
  | size :: rest =>
      if requiredArea ≤ size then some (size, size - requiredArea)
      else findClosestMetricLoop requiredArea rest

/-- Web `findClosestMetricSize` (round-up policy): the smallest standard
metric size ≥ `requiredArea`; if the required area exceeds every entry,
the largest entry with `diff = requiredArea − largest` (a deficit). -/
def findClosestMetricSize (requiredArea : ℚ) : ℚ × ℚ :=
  match findClosestMetricLoop requiredArea standardMetricSizes with
  | some r => r
  | none =>
      let largestSize := standardMetricSizes.getLastD 0
      (largestSize, requiredArea - largestSize)

/-- Loop of the web `findClosestAWG`. -/
def findClosestAWGLoop (requiredArea : ℚ) : List AWGSize → Option (String × ℚ × ℚ)
  | [] => none
  | awg :: rest =>
      if requiredArea ≤ awg.area then some (awg.label, awg.area, awg.area - requiredArea)
      else findClosestAWGLoop requiredArea rest

/-- Web `findClosestAWG` (round-up policy over the AWG table). -/
def findClosestAWG (requiredArea : ℚ) : String × ℚ × ℚ :=
  match findClosestAWGLoop requiredArea awgSizes with
  | some r => r
  | none =>
      let largestAWG := (awgSizes.getLastD ⟨"", 0⟩)
      (largestAWG.label, largestAWG.area, requiredArea - largestAWG.area)

/-- Web `calculateCableWeight`:
weight (g) = area (mm²) × weightPerMm2PerM (g/m per mm²) × length (m),
doubled for round trip (both conductors). -/
def calculateCableWeight (area length : ℚ) (material : CableMaterial) (roundTrip : Bool) : ℚ :=
  let weightPerMeter := area * material.weightPerMm2PerM
  let totalWeight := weightPerMeter * length
  if roundTrip then totalWeight * 2 else totalWeight

/-- The web ampacity base table: metric size (mm²) paired with its base
current rating (A) at 20 °C in free air, ascending by size. -/
def ampacityPairs : List (ℚ × ℚ) :=
  [(1/2, 11), (3/4, 14), (1, 17), (3/2, 22), (5/2, 30), (4, 40), (6, 50),
   (10, 70), (16, 90), (25, 115), (35, 140), (50, 175), (70, 215),
   (95, 260), (120, 300), (150, 340), (185, 385), (240, 450)]

/-- First half of web `calculateAmpacity`: scan the size table for the
first entry ≥ `area` and take its base rating; 0 when the area exceeds
the table (the caller then extrapolates). -/
def baseAmpacityLoop (area : ℚ) : List (ℚ × ℚ) → ℚ
  | [] => 0
  | (size, amp) :: rest => if area ≤ size then amp else baseAmpacityLoop area rest

/-- Web `temperatureDeratingFactors` table: ambient °C paired with the
derating factor, ascending in temperature, descending in factor. -/
def temperatureDeratingFactors : List (ℚ × ℚ) :=
  [(20, 1), (30, 94/100), (40, 88/100), (50, 82/100), (60, 75/100),
   (70, 67/100), (80, 58/100), (90, 49/100), (100, 41/100), (105, 36/100)]

/-- Interpolation loop of web `calculateAmpacity`: scan consecutive table
entries for the bracket containing `T` and interpolate linearly inside it;
the factor stays at its initialisation 1.0 when no bracket matches. -/
def interpLoop (T : ℚ) : List (ℚ × ℚ) → ℚ
  | (t1, f1) :: (t2, f2) :: rest =>
      if t1 ≤ T ∧ T ≤ t2 then f1 + (f2 - f1) * ((T - t1) / (t2 - t1))
      else interpLoop T ((t2, f2) :: rest)
  | _ => 1

/-- Temperature derating factor of web `calculateAmpacity`: clamped to the
first table factor below 20 °C and to the last above 105 °C, linearly
interpolated between the bracketing entries in between. -/
def temperatureDeratingFactor (T : ℚ) : ℚ :=
  if T ≤ 20 then 1
  else if 105 ≤ T then 36/100
  else interpLoop T temperatureDeratingFactors

/-- Web `installationDeratingFactors`: air 1.0, conduit 0.8, isolated 0.7. -/
def installationDeratingFactor : InstallationMethod → ℚ
  | .inAir => 1
  | .conduit => 8/10
  | .isolated => 7/10

/-- Web `calculateAmpacity`: base rating for the smallest catalog entry ≥
area (linear extrapolation beyond the table), times a material factor
(aluminum 0.61), the temperature derating factor, and the installation
derating factor; when the effective temperature exceeds 90 % of the wire
rating, a further linear penalty with floor 0.5 is applied. -/
def calculateAmpacity (area : ℚ) (material : CableMaterial)
    (installation : InstallationMethod) (ambientTempCelsius : ℚ)
    (wireType : WireType) : ℚ :=
  let b := baseAmpacityLoop area ampacityPairs
  let baseAmpacity := if b = 0 then 450 * (area / 240) else b
  let materialFactor : ℚ := if material.name = aluminum.name then 61/100 else 1
  let tempFactor := temperatureDeratingFactor ambientTempCelsius
  let installationFactor := installationDeratingFactor installation
  let ampacity := baseAmpacity * materialFactor * tempFactor * installationFactor
  let effectiveTemp := calculateEffectiveTemp ambientTempCelsius installation
  if wireType.maxTemp * (9/10) < effectiveTemp then
    ampacity * max (1/2)
      (1 - (effectiveTemp - wireType.maxTemp * (9/10)) / (wireType.maxTemp * (1/10)))
  else ampacity

/-- Web `standardFuseSizes` (A), ascending. -/
def standardFuseSizes : List ℚ :=
  [5, 15/2, 10, 15, 20, 25, 30, 35, 40, 50, 60, 70, 80, 100, 125, 150, 175, 200, 250, 300]

/-- Loop of web `findRecommendedFuse`: scan ascending, keep the last fuse
size ≤ the limit, stop at the first that exceeds it. -/
def findFuseLoop (maxFuseCurrent : ℚ) : List ℚ → Option ℚ → Option ℚ
  | [], acc => acc
  | f :: rest, acc => if f ≤ maxFuseCurrent then findFuseLoop maxFuseCurrent rest (some f) else acc

/-- Result record of web `findRecommendedFuse`. -/
structure FuseRecommendation where
  fuseSize : ℚ
  maxAmpacity : ℚ
  safetyFactor : ℚ
  maxFuseCurrent : ℚ
deriving DecidableEq

/-- Web `findRecommendedFuse`: the largest standard fuse ≤
`ampacity × safetyFactor`; the smallest standard fuse when none qualifies.
The source defaults `safetyFactor` to 0.85; here it is passed explicitly. -/
def findRecommendedFuse (ampacity safetyFactor : ℚ) : FuseRecommendation :=
  let maxFuseCurrent := ampacity * safetyFactor
  let recommendedFuse :=
    match findFuseLoop maxFuseCurrent standardFuseSizes none with
    | some f => f
    | none => standardFuseSizes.headI
  ⟨recommendedFuse, ampacity, safetyFactor, maxFuseCurrent⟩

end Web

/-- `areaToDiameter` (identical on all surfaces): the diameter of the
circle with the given cross-sectional area, d = 2·√(area/π). -/
noncomputable def areaToDiameter (area : ℝ) : ℝ :=
  2 * Real.sqrt (area / Real.pi)

/-- Well-formedness of an interpolation table: keys strictly ascending,
values non-increasing (proof infrastructure for `Web.interpLoop`). -/
def TableOK : List (ℚ × ℚ) → Prop
  | (t1, f1) :: (t2, f2) :: rest => t1 < t2 ∧ f2 ≤ f1 ∧ TableOK ((t2, f2) :: rest)
  | _ => True

/-- Last key of an interpolation table (0 for the empty table). -/
def lastKey : List (ℚ × ℚ) → ℚ
  | [] => 0
  | [(t, _)] => t
  | _ :: rest => lastKey rest

/-- Last value of an interpolation table (1 for the empty table). -/
def lastVal : List (ℚ × ℚ) → ℚ
  | [] => 1
  | [(_, f)] => f
  | _ :: rest => lastVal rest

/-- The base-ampacity part of `Web.calculateAmpacity`: table lookup, with
linear extrapolation from the largest entry when the loop found nothing. -/
def calculateBaseAmpacity (area : ℚ) : ℚ :=
  if Web.baseAmpacityLoop area Web.ampacityPairs = 0 then 450 * (area / 240)
  else Web.baseAmpacityLoop area Web.ampacityPairs

/-- The ambient-temperature-independent factors of `Web.calculateAmpacity`:
base ampacity × material factor × installation derating factor. -/
def ampFixed (area : ℚ) (m : CableMaterial) (inst : InstallationMethod) : ℚ :=
  calculateBaseAmpacity area * (if m.name = aluminum.name then 61/100 else 1) *
    Web.installationDeratingFactor inst

/-- The final wire-temperature penalty factor of `Web.calculateAmpacity`:
max(0.5, 1 − (T_eff − 0.9·maxTemp)/(0.1·maxTemp)) once the effective
temperature passes 90 % of the wire rating, 1 otherwise. -/
def warnFactor (wt : WireType) (inst : InstallationMethod) (T : ℚ) : ℚ :=
  if wt.maxTemp * (9/10) < calculateEffectiveTemp T inst then
    max (1/2)
      (1 - (calculateEffectiveTemp T inst - wt.maxTemp * (9/10)) / (wt.maxTemp * (1/10)))
  else 1

/-- The Go resolver loops keep a non-negative absolute difference:
invariant of `Cli.findClosestMetricLoop`. -/
lemma findClosestMetricLoop_diff_nonneg (req : ℚ) :
    ∀ (l : List ℚ) (acc : ℚ × ℚ), 0 ≤ acc.2 →
      0 ≤ (Cli.findClosestMetricLoop req l acc).2 := by
  intro l
  induction l with
  | nil => intro acc h; simpa [Cli.findClosestMetricLoop] using h
  | cons s rest IH =>
    intro acc h
    obtain ⟨cs, md⟩ := acc
    simp only [Cli.findClosestMetricLoop]
    split_ifs with hlt
    · exact IH (s, |s - req|) (abs_nonneg _)
    · exact IH (cs, md) h

/-- Invariant of `Cli.findClosestAWGLoop`: the tracked difference stays
non-negative. -/
lemma findClosestAWGLoop_diff_nonneg (req : ℚ) :
    ∀ (l : List AWGSize) (acc : String × ℚ × ℚ), 0 ≤ acc.2.2 →
      0 ≤ (Cli.findClosestAWGLoop req l acc).2.2 := by
  intro l
  induction l with
  | nil => intro acc h; simpa [Cli.findClosestAWGLoop] using h
  | cons awg rest IH =>
    intro acc h
    obtain ⟨lbl, ar, md⟩ := acc
    simp only [Cli.findClosestAWGLoop]
    split_ifs with hlt
    · exact IH (awg.label, awg.area, |awg.area - req|) (abs_nonneg _)
    · exact IH (lbl, ar, md) h

/-- Claim C10: for every required area the Go resolvers
`findClosestMetricSize` and `findClosestAWG` return a non-negative
difference (an absolute difference), so the sign of the returned
difference never distinguishes the beyond-table fallback from a normal
fit. -/
theorem goResolverDiffNonneg (req : ℚ) :
    0 ≤ (Cli.findClosestMetricSize req).2 ∧ 0 ≤ (Cli.findClosestAWG req).2.2 := by
  constructor
  · exact findClosestMetricLoop_diff_nonneg req standardMetricSizes (0, Cli.maxFloat64)
      (by norm_num [Cli.maxFloat64])
  · exact findClosestAWGLoop_diff_nonneg req awgSizes ("", 0, Cli.maxFloat64)
      (by norm_num [Cli.maxFloat64])

/-- Claim C1: the Go `findClosestMetricSize` does not round up: at required
area 8.0 mm² (below the table maximum 240) it returns 6.0 mm² — an entry
smaller than the required area — with an absolute difference 2.0, while
the round-up resolver of the web surface returns 10.0 mm².  This
contradicts the claimed "smallest table entry whose area is ≥
requiredArea" contract for the Go surface. -/
theorem metricResolverRoundsDownCounterexample :
    Cli.findClosestMetricSize 8 = (6, 2) ∧
    Web.findClosestMetricSize 8 = (10, 2) ∧ (6 : ℚ) < 8 ∧ (8 : ℚ) ≤ 240 := by
  refine ⟨?_, ?_, by norm_num, by norm_num⟩
  · norm_num [Cli.findClosestMetricSize, Cli.findClosestMetricLoop, Cli.maxFloat64,
      standardMetricSizes, abs_of_nonneg]
  · norm_num [Web.findClosestMetricSize, Web.findClosestMetricLoop, standardMetricSizes]

/-- Claim C2: with a zero denominator (`V × p/100 = 0`) the Go
`calculateCableArea` performs the division anyway: it returns IEEE
positive infinity (shown for max-drop-percent 0 and for voltage 0) — no
distinct "undefined voltage drop" error is reported to the caller. -/
theorem cableAreaZeroDropReturnsInfinity :
    Cli.calculateCableAreaFloat 12 10 5 0 copper false 20 .inAir = FloatVal.inf ∧
    Cli.calculateCableAreaFloat 0 10 5 3 copper false 20 .inAir = FloatVal.inf := by
  constructor <;>
    norm_num [Cli.calculateCableAreaFloat, Cli.calculateResistivityAtTemp, Cli.referenceTemp,
      calculateEffectiveTemp, installationTempAdjustment, copper]

/-- Claim C3: the required area is
(I × ρ(T_eff) × L × d) / (V × p/100) with d = 2 for round trip and 1
otherwise, and for 12 V, 10 A, 5 m, 3 %, copper, one-way, 20 °C, in-air
it is within 0.005 of 2.43 mm² (exactly 175/72 ≈ 2.4306). -/
theorem requiredAreaFormulaAndScenario :
    (∀ (V I L p : ℚ) (m : CableMaterial) (rt : Bool) (T : ℚ) (inst : InstallationMethod),
      Cli.calculateCableArea V I L p m rt T inst =
        (I * Cli.calculateResistivityAtTemp m (calculateEffectiveTemp T inst) * L *
          (if rt then 2 else 1)) / (V * (p / 100))) ∧
    |Cli.calculateCableArea 12 10 5 3 copper false 20 .inAir - 243/100| < 1/200 := by
  constructor
  · intro V I L p m rt T inst
    rfl
  · norm_num [Cli.calculateCableArea, Cli.calculateResistivityAtTemp, Cli.referenceTemp,
      calculateEffectiveTemp, installationTempAdjustment, copper, abs_of_nonneg]

/-- Claim C6: with all other parameters equal, the required area for a
round trip is exactly twice the one-way required area. -/
theorem roundTripDoublesRequiredArea (V I L p : ℚ) (m : CableMaterial) (T : ℚ)
    (inst : InstallationMethod) (hV : 0 < V) (hI : 0 < I) (hL : 0 < L) (hp : 0 < p) :
    Cli.calculateCableArea V I L p m true T inst =
      2 * Cli.calculateCableArea V I L p m false T inst := by
  simp only [Cli.calculateCableArea, Bool.false_eq_true, reduceIte]
  ring

/-- Witness for C6 at 12 V, 10 A, 5 m, 3 %, copper, 20 °C, in air. -/
theorem roundTripDoublesWitness :
    Cli.calculateCableArea 12 10 5 3 copper true 20 .inAir =
      2 * Cli.calculateCableArea 12 10 5 3 copper false 20 .inAir :=
  roundTripDoublesRequiredArea 12 10 5 3 copper 20 .inAir
    (by norm_num) (by norm_num) (by norm_num) (by norm_num)

/-- Claim C8: the wire-temperature validator classifies exactly as
specified: above the rating it is invalid with a message; above 90 % of
the rating but within it, valid with a message; at or below 90 % of the
rating, valid with no message. -/
theorem wireTemperatureClassification (effT : ℚ) (wt : WireType) (hw : 0 < wt.maxTemp) :
    (wt.maxTemp < effT → Cli.ValidateWireTemperature effT wt = (false, true)) ∧
    (wt.maxTemp * (9/10) < effT → effT ≤ wt.maxTemp →
      Cli.ValidateWireTemperature effT wt = (true, true)) ∧
    (effT ≤ wt.maxTemp * (9/10) → Cli.ValidateWireTemperature effT wt = (true, false)) := by
  unfold Cli.ValidateWireTemperature
  refine ⟨fun h => by rw [if_pos h], fun h1 h2 => ?_, fun h => ?_⟩
  · rw [if_neg (not_lt.mpr h2), if_pos h1]
  · have hle : effT ≤ wt.maxTemp := h.trans (by linarith)
    rw [if_neg (not_lt.mpr hle), if_neg (not_lt.mpr h)]

/-- Witness for C8: 100 °C effective temperature on PVC (70 °C rating) is
classified unsafe with a message. -/
theorem wireTemperatureClassificationWitness :
    Cli.ValidateWireTemperature 100 pvc = (false, true) :=
  (wireTemperatureClassification 100 pvc (by norm_num [pvc])).1 (by norm_num [pvc])

/-- Claim C9 (implicit): the cable weight is
area × weightPerMm2PerM × length, and the round-trip weight is exactly
twice the one-way weight. -/
theorem cableWeightFormulaAndRoundTrip :
    ∀ (area len : ℚ) (m : CableMaterial),
      Web.calculateCableWeight area len m false = area * m.weightPerMm2PerM * len ∧
      Web.calculateCableWeight area len m true =
        2 * Web.calculateCableWeight area len m false := by
  intro area len m
  constructor
  · rfl
  · simp only [Web.calculateCableWeight, Bool.false_eq_true, reduceIte]
    ring

/-- Claim C7: areaToDiameter is 2·√(area/π), is monotone, returns 0 at 0,
and the round trip π·(d/2)² recovers the area exactly (hence within any
positive tolerance, in particular 1e-4). -/
theorem areaToDiameterProperties :
    (∀ a : ℝ, areaToDiameter a = 2 * Real.sqrt (a / Real.pi)) ∧
    (∀ a b : ℝ, a ≤ b → areaToDiameter a ≤ areaToDiameter b) ∧
    areaToDiameter 0 = 0 ∧
    (∀ a : ℝ, 0 < a → |Real.pi * (areaToDiameter a / 2)^2 - a| ≤ 1/10000) := by
  refine ⟨fun a => rfl, fun a b h => ?_, ?_, fun a ha => ?_⟩
  · unfold areaToDiameter
    have hab : a / Real.pi ≤ b / Real.pi := (div_le_div_iff_of_pos_right Real.pi_pos).mpr h
    exact mul_le_mul_of_nonneg_left (Real.sqrt_le_sqrt hab) (by norm_num)
  · unfold areaToDiameter
    rw [zero_div, Real.sqrt_zero, mul_zero]
  · have hπ : (0:ℝ) < Real.pi := Real.pi_pos
    have hnn : 0 ≤ a / Real.pi := le_of_lt (div_pos ha hπ)
    unfold areaToDiameter
    have h2 : 2 * Real.sqrt (a / Real.pi) / 2 = Real.sqrt (a / Real.pi) := by ring
    rw [h2, Real.sq_sqrt hnn, mul_comm, div_mul_cancel₀ a (ne_of_gt hπ)]
    norm_num

theorem areaToDiameterWitness :
    areaToDiameter 0 ≤ areaToDiameter 1 ∧
    |Real.pi * (areaToDiameter 1 / 2)^2 - 1| ≤ 1/10000 :=
  ⟨areaToDiameterProperties.2.1 0 1 zero_le_one, areaToDiameterProperties.2.2.2 1 one_pos⟩

/-- In a well-formed table every key after the head is above the head key. -/
lemma tableOK_head_lt :
    ∀ (l : List (ℚ × ℚ)) (t f : ℚ), TableOK ((t, f) :: l) → ∀ x ∈ l, t < x.1 := by
  intro l
  induction l with
  | nil => intro t f _ x hx; simp at hx
  | cons y rest IH =>
    intro t f hOK x hx
    obtain ⟨ty, fy⟩ := y
    simp only [TableOK] at hOK
    obtain ⟨hlt, hle, hOK2⟩ := hOK
    rcases List.mem_cons.mp hx with rfl | hx2
    · exact hlt
    · exact lt_trans hlt (IH ty fy hOK2 x hx2)

/-- In a well-formed table the last value is at most the head value. -/
lemma tableOK_lastVal_le_head :
    ∀ (l : List (ℚ × ℚ)) (t f : ℚ), TableOK ((t, f) :: l) → lastVal ((t, f) :: l) ≤ f := by
  intro l
  induction l with
  | nil => intro t f _; simp [lastVal]
  | cons y rest IH =>
    intro t f hOK
    obtain ⟨ty, fy⟩ := y
    simp only [TableOK] at hOK
    obtain ⟨hlt, hle, hOK2⟩ := hOK
    calc lastVal ((t, f) :: (ty, fy) :: rest) = lastVal ((ty, fy) :: rest) := by
          simp only [lastVal]
      _ ≤ fy := IH ty fy hOK2
      _ ≤ f := hle

/-- The interpolation loop never exceeds the head value of a well-formed
table, for query points between the first and last keys. -/
lemma interpLoop_le_head :
    ∀ (rest : List (ℚ × ℚ)) (a fa b fb T : ℚ),
      TableOK ((a, fa) :: (b, fb) :: rest) → a ≤ T →
      T ≤ lastKey ((a, fa) :: (b, fb) :: rest) →
      Web.interpLoop T ((a, fa) :: (b, fb) :: rest) ≤ fa := by
  intro rest
  induction rest with
  | nil =>
    intro a fa b fb T hOK h1 h2
    simp only [TableOK] at hOK
    obtain ⟨hab, hba, -⟩ := hOK
    simp only [lastKey] at h2
    simp only [Web.interpLoop]
    rw [if_pos ⟨h1, h2⟩]
    have hpos : (0:ℚ) < b - a := by linarith
    have hr : 0 ≤ (T - a) / (b - a) := div_nonneg (by linarith) (le_of_lt hpos)
    have hprod : (fb - fa) * ((T - a) / (b - a)) ≤ 0 :=
      mul_nonpos_iff.mpr (Or.inr ⟨by linarith, hr⟩)
    linarith
  | cons c rtl IH =>
    intro a fa b fb T hOK h1 h2
    obtain ⟨cx, fcx⟩ := c
    simp only [TableOK] at hOK
    obtain ⟨hab, hba, hOK2⟩ := hOK
    simp only [lastKey] at h2
    rw [Web.interpLoop]
    split_ifs with hg
    · have hpos : (0:ℚ) < b - a := by linarith
      have hr : 0 ≤ (T - a) / (b - a) := div_nonneg (by linarith) (le_of_lt hpos)
      have hprod : (fb - fa) * ((T - a) / (b - a)) ≤ 0 :=
        mul_nonpos_iff.mpr (Or.inr ⟨by linarith, hr⟩)
      linarith
    · have hbT : b ≤ T := by
        by_contra hc
        push_neg at hc
        exact hg ⟨h1, le_of_lt hc⟩
      have htail := IH b fb cx fcx T hOK2 hbT (by simpa [lastKey] using h2)
      have hfb_fa : fb ≤ fa := hba
      calc Web.interpLoop T ((b, fb) :: (cx, fcx) :: rtl) ≤ fb := htail
        _ ≤ fa := hfb_fa

/-- The interpolation loop never drops below the last value of a
well-formed table, for query points between the first and last keys. -/
lemma interpLoop_ge_last :
    ∀ (rest : List (ℚ × ℚ)) (a fa b fb T : ℚ),
      TableOK ((a, fa) :: (b, fb) :: rest) → a ≤ T →
      T ≤ lastKey ((a, fa) :: (b, fb) :: rest) →
      lastVal ((a, fa) :: (b, fb) :: rest) ≤ Web.interpLoop T ((a, fa) :: (b, fb) :: rest) := by
  intro rest
  induction rest with
  | nil =>
    intro a fa b fb T hOK h1 h2
    simp only [TableOK] at hOK
    obtain ⟨hab, hba, -⟩ := hOK
    simp only [lastKey] at h2
    simp only [lastVal, Web.interpLoop]
    rw [if_pos ⟨h1, h2⟩]
    have hpos : (0:ℚ) < b - a := by linarith
    have hr1 : (T - a) / (b - a) ≤ 1 := (div_le_one hpos).mpr (by linarith)
    have hkey : fa + (fb - fa) * ((T - a) / (b - a)) - fb
        = (fa - fb) * (1 - (T - a) / (b - a)) := by ring
    have hprod : 0 ≤ (fa - fb) * (1 - (T - a) / (b - a)) :=
      mul_nonneg (by linarith) (by linarith)
    linarith
  | cons c rtl IH =>
    intro a fa b fb T hOK h1 h2
    obtain ⟨cx, fcx⟩ := c
    simp only [TableOK] at hOK
    obtain ⟨hab, hba, hOK2⟩ := hOK
    simp only [lastKey] at h2
    have hlast : lastVal ((a, fa) :: (b, fb) :: (cx, fcx) :: rtl)
        = lastVal ((b, fb) :: (cx, fcx) :: rtl) := by simp only [lastVal]
    rw [Web.interpLoop, hlast]
    split_ifs with hg
    · have hpos : (0:ℚ) < b - a := by linarith
      have hr1 : (T - a) / (b - a) ≤ 1 := (div_le_one hpos).mpr (by linarith [hg.2])
      have hkey : fa + (fb - fa) * ((T - a) / (b - a)) - fb
          = (fa - fb) * (1 - (T - a) / (b - a)) := by ring
      have hprod : 0 ≤ (fa - fb) * (1 - (T - a) / (b - a)) :=
        mul_nonneg (by linarith) (by linarith)
      have hfb : fb ≤ fa + (fb - fa) * ((T - a) / (b - a)) := by linarith
      exact le_trans (tableOK_lastVal_le_head _ b fb hOK2) hfb
    · have hbT : b ≤ T := by
        by_contra hc
        push_neg at hc
        exact hg ⟨h1, le_of_lt hc⟩
      exact IH b fb cx fcx T hOK2 hbT (by simpa [lastKey] using h2)

/-- The interpolation loop is antitone on a well-formed table between the
first and last keys. -/
lemma interpLoop_antitone :
    ∀ (rest : List (ℚ × ℚ)) (a fa b fb T1 T2 : ℚ),
      TableOK ((a, fa) :: (b, fb) :: rest) → a ≤ T1 → T1 ≤ T2 →
      T2 ≤ lastKey ((a, fa) :: (b, fb) :: rest) →
      Web.interpLoop T2 ((a, fa) :: (b, fb) :: rest) ≤
        Web.interpLoop T1 ((a, fa) :: (b, fb) :: rest) := by
  intro rest
  induction rest with
  | nil =>
    intro a fa b fb T1 T2 hOK h1 h12 h2
    simp only [TableOK] at hOK
    obtain ⟨hab, hba, -⟩ := hOK
    simp only [lastKey] at h2
    have hT1b : T1 ≤ b := le_trans h12 h2
    simp only [Web.interpLoop]
    rw [if_pos ⟨le_trans h1 h12, h2⟩, if_pos ⟨h1, hT1b⟩]
    have hpos : (0:ℚ) < b - a := by linarith
    have hkey : fa + (fb - fa) * ((T2 - a) / (b - a))
        - (fa + (fb - fa) * ((T1 - a) / (b - a)))
        = (fb - fa) * ((T2 - T1) / (b - a)) := by ring
    have hr : 0 ≤ (T2 - T1) / (b - a) := div_nonneg (by linarith) (le_of_lt hpos)
    have hprod : (fb - fa) * ((T2 - T1) / (b - a)) ≤ 0 :=
      mul_nonpos_iff.mpr (Or.inr ⟨by linarith, hr⟩)
    linarith
  | cons c rtl IH =>
    intro a fa b fb T1 T2 hOK h1 h12 h2
    obtain ⟨cx, fcx⟩ := c
    simp only [TableOK] at hOK
    obtain ⟨hab, hba, hOK2⟩ := hOK
    simp only [lastKey] at h2
    have hpos : (0:ℚ) < b - a := by linarith
    rcases le_or_lt T1 b with hT1b | hbT1
    · rcases le_or_lt T2 b with hT2b | hbT2
      · conv_lhs => rw [Web.interpLoop]
        conv_rhs => rw [Web.interpLoop]
        rw [if_pos ⟨le_trans h1 h12, hT2b⟩, if_pos ⟨h1, hT1b⟩]
        have hkey : fa + (fb - fa) * ((T2 - a) / (b - a))
            - (fa + (fb - fa) * ((T1 - a) / (b - a)))
            = (fb - fa) * ((T2 - T1) / (b - a)) := by ring
        have hr : 0 ≤ (T2 - T1) / (b - a) := div_nonneg (by linarith) (le_of_lt hpos)
        have hprod : (fb - fa) * ((T2 - T1) / (b - a)) ≤ 0 :=
          mul_nonpos_iff.mpr (Or.inr ⟨by linarith, hr⟩)
        linarith
      · conv_lhs => rw [Web.interpLoop]
        conv_rhs => rw [Web.interpLoop]
        rw [if_neg (fun hc => absurd hc.2 (not_le.mpr hbT2)), if_pos ⟨h1, hT1b⟩]
        have htail := interpLoop_le_head rtl b fb cx fcx T2 hOK2 (le_of_lt hbT2)
          (by simpa [lastKey] using h2)
        have hr1 : (T1 - a) / (b - a) ≤ 1 := (div_le_one hpos).mpr (by linarith)
        have hkey : fa + (fb - fa) * ((T1 - a) / (b - a)) - fb
            = (fa - fb) * (1 - (T1 - a) / (b - a)) := by ring
        have hprod : 0 ≤ (fa - fb) * (1 - (T1 - a) / (b - a)) :=
          mul_nonneg (by linarith) (by linarith)
        linarith
    · conv_lhs => rw [Web.interpLoop]
      conv_rhs => rw [Web.interpLoop]
      rw [if_neg (fun hc => absurd hc.2 (not_le.mpr (lt_of_lt_of_le hbT1 h12))),
        if_neg (fun hc => absurd hc.2 (not_le.mpr hbT1))]
      exact IH b fb cx fcx T1 T2 hOK2 (le_of_lt hbT1) h12 (by simpa [lastKey] using h2)

/-- The interpolation loop evaluates to the linear interpolation of the
bracketing pair, anywhere inside a well-formed table. -/
lemma interpLoop_eval (T : ℚ) :
    ∀ (pre : List (ℚ × ℚ)) (a fa b fb : ℚ) (post : List (ℚ × ℚ)),
      TableOK (pre ++ (a, fa) :: (b, fb) :: post) → a ≤ T → T ≤ b →
      Web.interpLoop T (pre ++ (a, fa) :: (b, fb) :: post) =
        fa + (fb - fa) * ((T - a) / (b - a)) := by
  intro pre
  induction pre with
  | nil =>
    intro a fa b fb post hOK h1 h2
    show Web.interpLoop T ((a, fa) :: (b, fb) :: post) = _
    rw [Web.interpLoop, if_pos ⟨h1, h2⟩]
  | cons y pre' IH =>
    intro a fa b fb post hOK h1 h2
    obtain ⟨p, fp⟩ := y
    cases pre' with
    | nil =>
      simp only [List.cons_append, List.nil_append] at hOK ⊢
      simp only [TableOK] at hOK
      obtain ⟨hpa, hfap, hOK2⟩ := hOK
      have hab : a < b := hOK2.1
      rcases le_or_lt T a with hTa | haT
      · have hTeq : T = a := le_antisymm hTa h1
        subst hTeq
        rw [Web.interpLoop, if_pos ⟨le_of_lt hpa, le_refl T⟩]
        have hne : T - p ≠ 0 := by
          have : (0:ℚ) < T - p := by linarith
          exact ne_of_gt this
        rw [div_self hne, sub_self, zero_div]
        ring
      · rw [Web.interpLoop, if_neg (fun hc => absurd hc.2 (not_le.mpr haT))]
        have := IH a fa b fb post (by simpa using hOK2) h1 h2
        simpa using this
    | cons z pre'' =>
      obtain ⟨q, fq⟩ := z
      simp only [List.cons_append] at hOK ⊢
      simp only [TableOK] at hOK
      obtain ⟨hpq, hfqp, hOK2⟩ := hOK
      have hamem : ((a, fa) : ℚ × ℚ) ∈ pre'' ++ (a, fa) :: (b, fb) :: post := by simp
      have hqa : q < a := by
        have := tableOK_head_lt (pre'' ++ (a, fa) :: (b, fb) :: post) q fq
          (by simpa using hOK2) (a, fa) hamem
        simpa using this
      rw [Web.interpLoop,
        if_neg (fun hc => absurd hc.2 (not_le.mpr (lt_of_lt_of_le hqa h1)))]
      have := IH a fa b fb post (by simpa using hOK2) h1 h2
      simpa using this

/-- The web derating table is well-formed: keys ascending, factors
non-increasing. -/
lemma tableOK_derating : TableOK Web.temperatureDeratingFactors := by
  norm_num [TableOK, Web.temperatureDeratingFactors]

/-- Below 20 °C the derating factor is clamped to 1. -/
lemma temperatureDeratingFactor_eval_low {T : ℚ} (h : T ≤ 20) :
    Web.temperatureDeratingFactor T = 1 := by
  unfold Web.temperatureDeratingFactor
  rw [if_pos h]

/-- Above 105 °C the derating factor is clamped to 0.36. -/
lemma temperatureDeratingFactor_eval_high {T : ℚ} (h : 105 ≤ T) :
    Web.temperatureDeratingFactor T = 36/100 := by
  unfold Web.temperatureDeratingFactor
  rw [if_neg (not_le.mpr (by linarith : (20:ℚ) < T)), if_pos h]

/-- Strictly between the clamps the derating factor is the interpolation
loop's value. -/
lemma temperatureDeratingFactor_eval_mid {T : ℚ} (h1 : 20 < T) (h2 : T < 105) :
    Web.temperatureDeratingFactor T = Web.interpLoop T Web.temperatureDeratingFactors := by
  unfold Web.temperatureDeratingFactor
  rw [if_neg (not_le.mpr h1), if_neg (not_le.mpr h2)]

/-- The temperature derating factor never exceeds 1. -/
lemma temperatureDeratingFactor_le_one (T : ℚ) : Web.temperatureDeratingFactor T ≤ 1 := by
  rcases le_or_lt T 20 with h | h
  · rw [temperatureDeratingFactor_eval_low h]
  · rcases le_or_lt 105 T with h2 | h2
    · rw [temperatureDeratingFactor_eval_high h2]; norm_num
    · rw [temperatureDeratingFactor_eval_mid h h2]
      exact interpLoop_le_head
        [(40, 88/100), (50, 82/100), (60, 75/100), (70, 67/100), (80, 58/100),
         (90, 49/100), (100, 41/100), (105, 36/100)] 20 1 30 (94/100) T
        tableOK_derating (le_of_lt h) (by simp only [lastKey]; linarith)

/-- The temperature derating factor never drops below 0.36. -/
lemma temperatureDeratingFactor_ge (T : ℚ) : 36/100 ≤ Web.temperatureDeratingFactor T := by
  rcases le_or_lt T 20 with h | h
  · rw [temperatureDeratingFactor_eval_low h]; norm_num
  · rcases le_or_lt 105 T with h2 | h2
    · rw [temperatureDeratingFactor_eval_high h2]
    · rw [temperatureDeratingFactor_eval_mid h h2]
      have := interpLoop_ge_last
        [(40, 88/100), (50, 82/100), (60, 75/100), (70, 67/100), (80, 58/100),
         (90, 49/100), (100, 41/100), (105, 36/100)] 20 1 30 (94/100) T
        tableOK_derating (le_of_lt h) (by simp only [lastKey]; linarith)
      simpa [lastVal] using this

/-- The temperature derating factor is antitone in ambient temperature. -/
lemma temperatureDeratingFactor_antitone {T1 T2 : ℚ} (h : T1 ≤ T2) :
    Web.temperatureDeratingFactor T2 ≤ Web.temperatureDeratingFactor T1 := by
  rcases le_or_lt T2 20 with h2a | h2a
  · rw [temperatureDeratingFactor_eval_low h2a,
      temperatureDeratingFactor_eval_low (le_trans h h2a)]
  · rcases le_or_lt 105 T2 with h2b | h2b
    · rw [temperatureDeratingFactor_eval_high h2b]
      exact temperatureDeratingFactor_ge T1
    · rw [temperatureDeratingFactor_eval_mid h2a h2b]
      rcases le_or_lt T1 20 with h1a | h1a
      · rw [temperatureDeratingFactor_eval_low h1a]
        exact interpLoop_le_head
          [(40, 88/100), (50, 82/100), (60, 75/100), (70, 67/100), (80, 58/100),
           (90, 49/100), (100, 41/100), (105, 36/100)] 20 1 30 (94/100) T2
          tableOK_derating (le_of_lt h2a) (by simp only [lastKey]; linarith)
      · rw [temperatureDeratingFactor_eval_mid h1a (lt_of_le_of_lt h h2b)]
        exact interpLoop_antitone
          [(40, 88/100), (50, 82/100), (60, 75/100), (70, 67/100), (80, 58/100),
           (90, 49/100), (100, 41/100), (105, 36/100)] 20 1 30 (94/100) T1 T2
          tableOK_derating (le_of_lt h1a) h (by simp only [lastKey]; linarith)

/-- The wire-temperature penalty factor never exceeds 1 (positive rating). -/
lemma warnFactor_le_one (wt : WireType) (inst : InstallationMethod) (T : ℚ)
    (hw : 0 < wt.maxTemp) : warnFactor wt inst T ≤ 1 := by
  unfold warnFactor
  split_ifs with h
  · apply max_le (by norm_num)
    have hd : (0:ℚ) < wt.maxTemp * (1/10) := by linarith
    have hx : 0 ≤ (calculateEffectiveTemp T inst - wt.maxTemp * (9/10)) /
        (wt.maxTemp * (1/10)) := div_nonneg (by linarith) (le_of_lt hd)
    linarith
  · exact le_refl 1

/-- The wire-temperature penalty factor never drops below its floor 1/2. -/
lemma warnFactor_ge_half (wt : WireType) (inst : InstallationMethod) (T : ℚ) :
    1/2 ≤ warnFactor wt inst T := by
  unfold warnFactor
  split_ifs with h
  · exact le_max_left _ _
  · norm_num

/-- The wire-temperature penalty factor is antitone in ambient temperature
(positive rating). -/
lemma warnFactor_antitone (wt : WireType) (inst : InstallationMethod) (T1 T2 : ℚ)
    (hw : 0 < wt.maxTemp) (h : T1 ≤ T2) :
    warnFactor wt inst T2 ≤ warnFactor wt inst T1 := by
  have he : calculateEffectiveTemp T1 inst ≤ calculateEffectiveTemp T2 inst := by
    unfold calculateEffectiveTemp
    linarith
  unfold warnFactor
  split_ifs with h2 h1
  · apply max_le_max (le_refl (1/2))
    have hd : (0:ℚ) < wt.maxTemp * (1/10) := by linarith
    have hdiv := (div_le_div_iff_of_pos_right hd).mpr
      (by linarith : calculateEffectiveTemp T1 inst - wt.maxTemp * (9/10) ≤
        calculateEffectiveTemp T2 inst - wt.maxTemp * (9/10))
    linarith
  · apply max_le (by norm_num)
    have hd : (0:ℚ) < wt.maxTemp * (1/10) := by linarith
    have hx : 0 ≤ (calculateEffectiveTemp T2 inst - wt.maxTemp * (9/10)) /
        (wt.maxTemp * (1/10)) := div_nonneg (by linarith) (le_of_lt hd)
    linarith
  · exact absurd (lt_of_lt_of_le ‹wt.maxTemp * (9/10) < calculateEffectiveTemp T1 inst› he) h2
  · exact le_refl 1

/-- On a table of positive ratings, a zero loop result means every key is
below the area. -/
lemma baseAmpacityLoop_zero_keys (area : ℚ) :
    ∀ (l : List (ℚ × ℚ)), (∀ p ∈ l, 0 < p.2) →
      Web.baseAmpacityLoop area l = 0 → ∀ p ∈ l, p.1 < area := by
  intro l
  induction l with
  | nil => intro _ _ p hp; simp at hp
  | cons y rest IH =>
    intro hpos h p hp
    obtain ⟨s, amp⟩ := y
    simp only [Web.baseAmpacityLoop] at h
    split_ifs at h with hs
    · exact absurd h (ne_of_gt (hpos (s, amp) (by simp)))
    · rcases List.mem_cons.mp hp with rfl | hp2
      · simpa using not_le.mp hs
      · exact IH (fun q hq => hpos q (List.mem_cons_of_mem _ hq)) h p hp2

/-- A zero result of the base-ampacity loop means the area is beyond the
table maximum of 240 mm². -/
lemma baseAmpacityLoop_zero_imp (area : ℚ) :
    Web.baseAmpacityLoop area Web.ampacityPairs = 0 → 240 < area := by
  intro h
  have hpos : ∀ p ∈ Web.ampacityPairs, (0:ℚ) < p.2 := by
    intro p hp
    fin_cases hp <;> norm_num
  have := baseAmpacityLoop_zero_keys area Web.ampacityPairs hpos h (240, 450)
    (by norm_num [Web.ampacityPairs])
  simpa using this

/-- The base-ampacity loop is non-negative on a table of non-negative
ratings. -/
lemma baseAmpacityLoop_nonneg_of (area : ℚ) :
    ∀ (l : List (ℚ × ℚ)), (∀ p ∈ l, 0 ≤ p.2) → 0 ≤ Web.baseAmpacityLoop area l := by
  intro l
  induction l with
  | nil => intro _; simp [Web.baseAmpacityLoop]
  | cons y rest IH =>
    intro hpos
    obtain ⟨s, amp⟩ := y
    simp only [Web.baseAmpacityLoop]
    split_ifs with hs
    · exact hpos (s, amp) (by simp)
    · exact IH fun q hq => hpos q (List.mem_cons_of_mem _ hq)

/-- The base-ampacity loop is non-negative on the catalog table. -/
lemma baseAmpacityLoop_nonneg (area : ℚ) : 0 ≤ Web.baseAmpacityLoop area Web.ampacityPairs := by
  apply baseAmpacityLoop_nonneg_of
  intro p hp
  fin_cases hp <;> norm_num

/-- The base ampacity (table value or extrapolation) is positive. -/
lemma calculateBaseAmpacity_pos (area : ℚ) : 0 < calculateBaseAmpacity area := by
  unfold calculateBaseAmpacity
  split_ifs with h
  · have h240 := baseAmpacityLoop_zero_imp area h
    have : (0:ℚ) < area / 240 := div_pos (by linarith) (by norm_num)
    linarith
  · exact lt_of_le_of_ne (baseAmpacityLoop_nonneg area) (Ne.symm h)

/-- The temperature-independent ampacity factors are positive. -/
lemma ampFixed_pos (area : ℚ) (m : CableMaterial) (inst : InstallationMethod) :
    0 < ampFixed area m inst := by
  unfold ampFixed
  have h1 := calculateBaseAmpacity_pos area
  have h2 : (0:ℚ) < if m.name = aluminum.name then 61/100 else 1 := by
    split_ifs <;> norm_num
  have h3 : 0 < Web.installationDeratingFactor inst := by
    cases inst <;> norm_num [Web.installationDeratingFactor]
  exact mul_pos (mul_pos h1 h2) h3

/-- `Web.calculateAmpacity` factors as fixed part × temperature derating ×
wire-temperature penalty. -/
lemma calculateAmpacity_eq (area : ℚ) (m : CableMaterial) (inst : InstallationMethod)
    (T : ℚ) (wt : WireType) :
    Web.calculateAmpacity area m inst T wt =
      ampFixed area m inst * Web.temperatureDeratingFactor T * warnFactor wt inst T := by
  simp only [Web.calculateAmpacity, ampFixed, calculateBaseAmpacity, warnFactor]
  split_ifs <;> ring

/-- Claim C4: with area, material, installation, and wire type fixed, the
ampacity is monotonically non-increasing in ambient temperature; the
temperature derating factor is clamped to the table's endpoint values
outside 20–105 °C and is the linear interpolation of the two bracketing
table entries inside. -/
theorem ampacityMonotoneAndDeratingClamped :
    (∀ (area : ℚ) (m : CableMaterial) (inst : InstallationMethod) (wt : WireType) (T1 T2 : ℚ),
      0 < wt.maxTemp → T1 ≤ T2 →
      Web.calculateAmpacity area m inst T2 wt ≤ Web.calculateAmpacity area m inst T1 wt) ∧
    (∀ T : ℚ, T ≤ 20 → Web.temperatureDeratingFactor T = 1) ∧
    (∀ T : ℚ, 105 ≤ T → Web.temperatureDeratingFactor T = 36/100) ∧
    (∀ pr ∈ Web.temperatureDeratingFactors.zip Web.temperatureDeratingFactors.tail,
      ∀ T : ℚ, pr.1.1 ≤ T → T ≤ pr.2.1 →
        Web.temperatureDeratingFactor T =
          pr.1.2 + (pr.2.2 - pr.1.2) * ((T - pr.1.1) / (pr.2.1 - pr.1.1))) := by
  refine ⟨?_, fun T h => temperatureDeratingFactor_eval_low h,
    fun T h => temperatureDeratingFactor_eval_high h, ?_⟩
  · intro area m inst wt T1 T2 hw h
    rw [calculateAmpacity_eq, calculateAmpacity_eq]
    have hA := ampFixed_pos area m inst
    have ht := temperatureDeratingFactor_antitone h
    have hwf := warnFactor_antitone wt inst T1 T2 hw h
    have htn : (0:ℚ) ≤ Web.temperatureDeratingFactor T1 :=
      le_trans (by norm_num) (temperatureDeratingFactor_ge T1)
    have hwn : (0:ℚ) ≤ warnFactor wt inst T2 :=
      le_trans (by norm_num) (warnFactor_ge_half wt inst T2)
    rw [mul_assoc, mul_assoc]
    exact mul_le_mul_of_nonneg_left (mul_le_mul ht hwf hwn htn) (le_of_lt hA)
  · intro pr hpr
    simp only [Web.temperatureDeratingFactors, List.tail_cons, List.zip_cons_cons,
      List.zip_nil_right] at hpr
    fin_cases hpr
    · intro T h1 h2
      have h1' : (20:ℚ) ≤ T := h1
      have h2' : T ≤ 30 := h2
      rcases le_or_lt T 20 with hT | hT
      · have hTeq : T = 20 := le_antisymm hT h1'
        subst hTeq
        rw [temperatureDeratingFactor_eval_low (le_refl _)]
        norm_num
      · rw [temperatureDeratingFactor_eval_mid hT (by linarith)]
        exact interpLoop_eval T [] 20 1 30 (94/100)
          [(40, 88/100), (50, 82/100), (60, 75/100), (70, 67/100), (80, 58/100),
           (90, 49/100), (100, 41/100), (105, 36/100)] tableOK_derating h1' h2'
    · intro T h1 h2
      have h1' : (30:ℚ) ≤ T := h1
      have h2' : T ≤ 40 := h2
      rw [temperatureDeratingFactor_eval_mid (by linarith) (by linarith)]
      exact interpLoop_eval T [(20, 1)] 30 (94/100) 40 (88/100)
        [(50, 82/100), (60, 75/100), (70, 67/100), (80, 58/100),
         (90, 49/100), (100, 41/100), (105, 36/100)] tableOK_derating h1' h2'
    · intro T h1 h2
      have h1' : (40:ℚ) ≤ T := h1
      have h2' : T ≤ 50 := h2
      rw [temperatureDeratingFactor_eval_mid (by linarith) (by linarith)]
      exact interpLoop_eval T [(20, 1), (30, 94/100)] 40 (88/100) 50 (82/100)
        [(60, 75/100), (70, 67/100), (80, 58/100),
         (90, 49/100), (100, 41/100), (105, 36/100)] tableOK_derating h1' h2'
    · intro T h1 h2
      have h1' : (50:ℚ) ≤ T := h1
      have h2' : T ≤ 60 := h2
      rw [temperatureDeratingFactor_eval_mid (by linarith) (by linarith)]
      exact interpLoop_eval T [(20, 1), (30, 94/100), (40, 88/100)] 50 (82/100) 60 (75/100)
        [(70, 67/100), (80, 58/100), (90, 49/100), (100, 41/100), (105, 36/100)]
        tableOK_derating h1' h2'
    · intro T h1 h2
      have h1' : (60:ℚ) ≤ T := h1
      have h2' : T ≤ 70 := h2
      rw [temperatureDeratingFactor_eval_mid (by linarith) (by linarith)]
      exact interpLoop_eval T [(20, 1), (30, 94/100), (40, 88/100), (50, 82/100)]
        60 (75/100) 70 (67/100)
        [(80, 58/100), (90, 49/100), (100, 41/100), (105, 36/100)]
        tableOK_derating h1' h2'
    · intro T h1 h2
      have h1' : (70:ℚ) ≤ T := h1
      have h2' : T ≤ 80 := h2
      rw [temperatureDeratingFactor_eval_mid (by linarith) (by linarith)]
      exact interpLoop_eval T [(20, 1), (30, 94/100), (40, 88/100), (50, 82/100), (60, 75/100)]
        70 (67/100) 80 (58/100)
        [(90, 49/100), (100, 41/100), (105, 36/100)] tableOK_derating h1' h2'
    · intro T h1 h2
      have h1' : (80:ℚ) ≤ T := h1
      have h2' : T ≤ 90 := h2
      rw [temperatureDeratingFactor_eval_mid (by linarith) (by linarith)]
      exact interpLoop_eval T
        [(20, 1), (30, 94/100), (40, 88/100), (50, 82/100), (60, 75/100), (70, 67/100)]
        80 (58/100) 90 (49/100)
        [(100, 41/100), (105, 36/100)] tableOK_derating h1' h2'
    · intro T h1 h2
      have h1' : (90:ℚ) ≤ T := h1
      have h2' : T ≤ 100 := h2
      rw [temperatureDeratingFactor_eval_mid (by linarith) (by linarith)]
      exact interpLoop_eval T
        [(20, 1), (30, 94/100), (40, 88/100), (50, 82/100), (60, 75/100), (70, 67/100),
         (80, 58/100)] 90 (49/100) 100 (41/100)
        [(105, 36/100)] tableOK_derating h1' h2'
    · intro T h1 h2
      have h1' : (100:ℚ) ≤ T := h1
      have h2' : T ≤ 105 := h2
      rcases le_or_lt 105 T with hT | hT
      · have hTeq : T = 105 := le_antisymm h2' hT
        subst hTeq
        rw [temperatureDeratingFactor_eval_high (le_refl _)]
        norm_num
      · rw [temperatureDeratingFactor_eval_mid (by linarith) hT]
        exact interpLoop_eval T
          [(20, 1), (30, 94/100), (40, 88/100), (50, 82/100), (60, 75/100), (70, 67/100),
           (80, 58/100), (90, 49/100)] 100 (41/100) 105 (36/100)
          [] tableOK_derating h1' h2'

/-- Witness for C4: with 4 mm² copper in air on generic wire, ampacity at
40 °C ambient does not exceed ampacity at 30 °C ambient. -/
theorem ampacityMonotoneWitness :
    Web.calculateAmpacity 4 copper .inAir 40 genericWire ≤
      Web.calculateAmpacity 4 copper .inAir 30 genericWire :=
  ampacityMonotoneAndDeratingClamped.1 4 copper .inAir genericWire 30 40
    (by norm_num [genericWire]) (by norm_num)

set_option maxHeartbeats 4000000 in
/-- Claim C5: with safety factor 0.85, the recommended fuse is always a
member of the standard fuse table; when some standard fuse fits under
ampacity × 0.85 the result is the largest such fuse (it fits and bounds
every fitting fuse); when none fits the result is the smallest standard
fuse, 5 A. -/
theorem recommendFuseLargestQualifying (amp : ℚ) :
    (Web.findRecommendedFuse amp (85/100)).fuseSize ∈ Web.standardFuseSizes ∧
    (5 ≤ amp * (85/100) → (Web.findRecommendedFuse amp (85/100)).fuseSize ≤ amp * (85/100)) ∧
    (∀ f ∈ Web.standardFuseSizes, f ≤ amp * (85/100) →
      f ≤ (Web.findRecommendedFuse amp (85/100)).fuseSize) ∧
    (amp * (85/100) < 5 → (Web.findRecommendedFuse amp (85/100)).fuseSize = 5) := by
  rcases lt_or_le (amp * (85/100)) (5) with hK | h1
  · have hr : (Web.findRecommendedFuse amp (85/100)).fuseSize = 5 := by
      simp only [Web.findRecommendedFuse, Web.findFuseLoop, Web.standardFuseSizes,
        List.headI, not_le.mpr hK, if_true, if_false]
    rw [hr]
    refine ⟨by norm_num [Web.standardFuseSizes], fun h5 => h5, ?_, fun _ => rfl⟩
    intro f hf hfm
    simp only [Web.standardFuseSizes] at hf
    fin_cases hf <;> linarith only [hfm, hK]
  · rcases lt_or_le (amp * (85/100)) (15/2) with hK | h2
    · have hr : (Web.findRecommendedFuse amp (85/100)).fuseSize = 5 := by
        simp only [Web.findRecommendedFuse, Web.findFuseLoop, Web.standardFuseSizes,
          List.headI, h1, not_le.mpr hK, if_true, if_false]
      rw [hr]
      refine ⟨by norm_num [Web.standardFuseSizes], fun _ => h1, ?_,
        fun hlt => absurd h1 (not_le.mpr hlt)⟩
      intro f hf hfm
      simp only [Web.standardFuseSizes] at hf
      fin_cases hf <;> linarith only [hfm, hK]
    · rcases lt_or_le (amp * (85/100)) (10) with hK | h3
      · have hr : (Web.findRecommendedFuse amp (85/100)).fuseSize = 15/2 := by
          simp only [Web.findRecommendedFuse, Web.findFuseLoop, Web.standardFuseSizes,
            List.headI, h1, h2, not_le.mpr hK, if_true, if_false]
        rw [hr]
        refine ⟨by norm_num [Web.standardFuseSizes], fun _ => h2, ?_,
          fun hlt => absurd h1 (not_le.mpr hlt)⟩
        intro f hf hfm
        simp only [Web.standardFuseSizes] at hf
        fin_cases hf <;> linarith only [hfm, hK]
      · rcases lt_or_le (amp * (85/100)) (15) with hK | h4
        · have hr : (Web.findRecommendedFuse amp (85/100)).fuseSize = 10 := by
            simp only [Web.findRecommendedFuse, Web.findFuseLoop, Web.standardFuseSizes,
              List.headI, h1, h2, h3, not_le.mpr hK, if_true, if_false]
          rw [hr]
          refine ⟨by norm_num [Web.standardFuseSizes], fun _ => h3, ?_,
            fun hlt => absurd h1 (not_le.mpr hlt)⟩
          intro f hf hfm
          simp only [Web.standardFuseSizes] at hf
          fin_cases hf <;> linarith only [hfm, hK]
        · rcases lt_or_le (amp * (85/100)) (20) with hK | h5
          · have hr : (Web.findRecommendedFuse amp (85/100)).fuseSize = 15 := by
              simp only [Web.findRecommendedFuse, Web.findFuseLoop, Web.standardFuseSizes,
                List.headI, h1, h2, h3, h4, not_le.mpr hK, if_true, if_false]
            rw [hr]
            refine ⟨by norm_num [Web.standardFuseSizes], fun _ => h4, ?_,
              fun hlt => absurd h1 (not_le.mpr hlt)⟩
            intro f hf hfm
            simp only [Web.standardFuseSizes] at hf
            fin_cases hf <;> linarith only [hfm, hK]
          · rcases lt_or_le (amp * (85/100)) (25) with hK | h6
            · have hr : (Web.findRecommendedFuse amp (85/100)).fuseSize = 20 := by
                simp only [Web.findRecommendedFuse, Web.findFuseLoop, Web.standardFuseSizes,
                  List.headI, h1, h2, h3, h4, h5, not_le.mpr hK, if_true, if_false]
              rw [hr]
              refine ⟨by norm_num [Web.standardFuseSizes], fun _ => h5, ?_,
                fun hlt => absurd h1 (not_le.mpr hlt)⟩
              intro f hf hfm
              simp only [Web.standardFuseSizes] at hf
              fin_cases hf <;> linarith only [hfm, hK]
            · rcases lt_or_le (amp * (85/100)) (30) with hK | h7
              · have hr : (Web.findRecommendedFuse amp (85/100)).fuseSize = 25 := by
                  simp only [Web.findRecommendedFuse, Web.findFuseLoop, Web.standardFuseSizes,
                    List.headI, h1, h2, h3, h4, h5, h6, not_le.mpr hK, if_true, if_false]
                rw [hr]
                refine ⟨by norm_num [Web.standardFuseSizes], fun _ => h6, ?_,
                  fun hlt => absurd h1 (not_le.mpr hlt)⟩
                intro f hf hfm
                simp only [Web.standardFuseSizes] at hf
                fin_cases hf <;> linarith only [hfm, hK]
              · rcases lt_or_le (amp * (85/100)) (35) with hK | h8
                · have hr : (Web.findRecommendedFuse amp (85/100)).fuseSize = 30 := by
                    simp only [Web.findRecommendedFuse, Web.findFuseLoop, Web.standardFuseSizes,
                      List.headI, h1, h2, h3, h4, h5, h6, h7, not_le.mpr hK, if_true, if_false]
                  rw [hr]
                  refine ⟨by norm_num [Web.standardFuseSizes], fun _ => h7, ?_,
                    fun hlt => absurd h1 (not_le.mpr hlt)⟩
                  intro f hf hfm
                  simp only [Web.standardFuseSizes] at hf
                  fin_cases hf <;> linarith only [hfm, hK]
                · rcases lt_or_le (amp * (85/100)) (40) with hK | h9
                  · have hr : (Web.findRecommendedFuse amp (85/100)).fuseSize = 35 := by
                      simp only [Web.findRecommendedFuse, Web.findFuseLoop, Web.standardFuseSizes,
                        List.headI, h1, h2, h3, h4, h5, h6, h7, h8, not_le.mpr hK, if_true, if_false]
                    rw [hr]
                    refine ⟨by norm_num [Web.standardFuseSizes], fun _ => h8, ?_,
                      fun hlt => absurd h1 (not_le.mpr hlt)⟩
                    intro f hf hfm
                    simp only [Web.standardFuseSizes] at hf
                    fin_cases hf <;> linarith only [hfm, hK]
                  · rcases lt_or_le (amp * (85/100)) (50) with hK | h10
                    · have hr : (Web.findRecommendedFuse amp (85/100)).fuseSize = 40 := by
                        simp only [Web.findRecommendedFuse, Web.findFuseLoop, Web.standardFuseSizes,
                          List.headI, h1, h2, h3, h4, h5, h6, h7, h8, h9, not_le.mpr hK, if_true, if_false]
                      rw [hr]
                      refine ⟨by norm_num [Web.standardFuseSizes], fun _ => h9, ?_,
                        fun hlt => absurd h1 (not_le.mpr hlt)⟩
                      intro f hf hfm
                      simp only [Web.standardFuseSizes] at hf
                      fin_cases hf <;> linarith only [hfm, hK]
                    · rcases lt_or_le (amp * (85/100)) (60) with hK | h11
                      · have hr : (Web.findRecommendedFuse amp (85/100)).fuseSize = 50 := by
                          simp only [Web.findRecommendedFuse, Web.findFuseLoop, Web.standardFuseSizes,
                            List.headI, h1, h2, h3, h4, h5, h6, h7, h8, h9, h10, not_le.mpr hK, if_true, if_false]
                        rw [hr]
                        refine ⟨by norm_num [Web.standardFuseSizes], fun _ => h10, ?_,
                          fun hlt => absurd h1 (not_le.mpr hlt)⟩
                        intro f hf hfm
                        simp only [Web.standardFuseSizes] at hf
                        fin_cases hf <;> linarith only [hfm, hK]
                      · rcases lt_or_le (amp * (85/100)) (70) with hK | h12
                        · have hr : (Web.findRecommendedFuse amp (85/100)).fuseSize = 60 := by
                            simp only [Web.findRecommendedFuse, Web.findFuseLoop, Web.standardFuseSizes,
                              List.headI, h1, h2, h3, h4, h5, h6, h7, h8, h9, h10, h11, not_le.mpr hK, if_true, if_false]
                          rw [hr]
                          refine ⟨by norm_num [Web.standardFuseSizes], fun _ => h11, ?_,
                            fun hlt => absurd h1 (not_le.mpr hlt)⟩
                          intro f hf hfm
                          simp only [Web.standardFuseSizes] at hf
                          fin_cases hf <;> linarith only [hfm, hK]
                        · rcases lt_or_le (amp * (85/100)) (80) with hK | h13
                          · have hr : (Web.findRecommendedFuse amp (85/100)).fuseSize = 70 := by
                              simp only [Web.findRecommendedFuse, Web.findFuseLoop, Web.standardFuseSizes,
                                List.headI, h1, h2, h3, h4, h5, h6, h7, h8, h9, h10, h11, h12, not_le.mpr hK, if_true, if_false]
                            rw [hr]
                            refine ⟨by norm_num [Web.standardFuseSizes], fun _ => h12, ?_,
                              fun hlt => absurd h1 (not_le.mpr hlt)⟩
                            intro f hf hfm
                            simp only [Web.standardFuseSizes] at hf
                            fin_cases hf <;> linarith only [hfm, hK]
                          · rcases lt_or_le (amp * (85/100)) (100) with hK | h14
                            · have hr : (Web.findRecommendedFuse amp (85/100)).fuseSize = 80 := by
                                simp only [Web.findRecommendedFuse, Web.findFuseLoop, Web.standardFuseSizes,
                                  List.headI, h1, h2, h3, h4, h5, h6, h7, h8, h9, h10, h11, h12, h13, not_le.mpr hK, if_true, if_false]
                              rw [hr]
                              refine ⟨by norm_num [Web.standardFuseSizes], fun _ => h13, ?_,
                                fun hlt => absurd h1 (not_le.mpr hlt)⟩
                              intro f hf hfm
                              simp only [Web.standardFuseSizes] at hf
                              fin_cases hf <;> linarith only [hfm, hK]
                            · rcases lt_or_le (amp * (85/100)) (125) with hK | h15
                              · have hr : (Web.findRecommendedFuse amp (85/100)).fuseSize = 100 := by
                                  simp only [Web.findRecommendedFuse, Web.findFuseLoop, Web.standardFuseSizes,
                                    List.headI, h1, h2, h3, h4, h5, h6, h7, h8, h9, h10, h11, h12, h13, h14, not_le.mpr hK, if_true, if_false]
                                rw [hr]
                                refine ⟨by norm_num [Web.standardFuseSizes], fun _ => h14, ?_,
                                  fun hlt => absurd h1 (not_le.mpr hlt)⟩
                                intro f hf hfm
                                simp only [Web.standardFuseSizes] at hf
                                fin_cases hf <;> linarith only [hfm, hK]
                              · rcases lt_or_le (amp * (85/100)) (150) with hK | h16
                                · have hr : (Web.findRecommendedFuse amp (85/100)).fuseSize = 125 := by
                                    simp only [Web.findRecommendedFuse, Web.findFuseLoop, Web.standardFuseSizes,
                                      List.headI, h1, h2, h3, h4, h5, h6, h7, h8, h9, h10, h11, h12, h13, h14, h15, not_le.mpr hK, if_true, if_false]
                                  rw [hr]
                                  refine ⟨by norm_num [Web.standardFuseSizes], fun _ => h15, ?_,
                                    fun hlt => absurd h1 (not_le.mpr hlt)⟩
                                  intro f hf hfm
                                  simp only [Web.standardFuseSizes] at hf
                                  fin_cases hf <;> linarith only [hfm, hK]
                                · rcases lt_or_le (amp * (85/100)) (175) with hK | h17
                                  · have hr : (Web.findRecommendedFuse amp (85/100)).fuseSize = 150 := by
                                      simp only [Web.findRecommendedFuse, Web.findFuseLoop, Web.standardFuseSizes,
                                        List.headI, h1, h2, h3, h4, h5, h6, h7, h8, h9, h10, h11, h12, h13, h14, h15, h16, not_le.mpr hK, if_true, if_false]
                                    rw [hr]
                                    refine ⟨by norm_num [Web.standardFuseSizes], fun _ => h16, ?_,
                                      fun hlt => absurd h1 (not_le.mpr hlt)⟩
                                    intro f hf hfm
                                    simp only [Web.standardFuseSizes] at hf
                                    fin_cases hf <;> linarith only [hfm, hK]
                                  · rcases lt_or_le (amp * (85/100)) (200) with hK | h18
                                    · have hr : (Web.findRecommendedFuse amp (85/100)).fuseSize = 175 := by
                                        simp only [Web.findRecommendedFuse, Web.findFuseLoop, Web.standardFuseSizes,
                                          List.headI, h1, h2, h3, h4, h5, h6, h7, h8, h9, h10, h11, h12, h13, h14, h15, h16, h17, not_le.mpr hK, if_true, if_false]
                                      rw [hr]
                                      refine ⟨by norm_num [Web.standardFuseSizes], fun _ => h17, ?_,
                                        fun hlt => absurd h1 (not_le.mpr hlt)⟩
                                      intro f hf hfm
                                      simp only [Web.standardFuseSizes] at hf
                                      fin_cases hf <;> linarith only [hfm, hK]
                                    · rcases lt_or_le (amp * (85/100)) (250) with hK | h19
                                      · have hr : (Web.findRecommendedFuse amp (85/100)).fuseSize = 200 := by
                                          simp only [Web.findRecommendedFuse, Web.findFuseLoop, Web.standardFuseSizes,
                                            List.headI, h1, h2, h3, h4, h5, h6, h7, h8, h9, h10, h11, h12, h13, h14, h15, h16, h17, h18, not_le.mpr hK, if_true, if_false]
                                        rw [hr]
                                        refine ⟨by norm_num [Web.standardFuseSizes], fun _ => h18, ?_,
                                          fun hlt => absurd h1 (not_le.mpr hlt)⟩
                                        intro f hf hfm
                                        simp only [Web.standardFuseSizes] at hf
                                        fin_cases hf <;> linarith only [hfm, hK]
                                      · rcases lt_or_le (amp * (85/100)) (300) with hK | h20
                                        · have hr : (Web.findRecommendedFuse amp (85/100)).fuseSize = 250 := by
                                            simp only [Web.findRecommendedFuse, Web.findFuseLoop, Web.standardFuseSizes,
                                              List.headI, h1, h2, h3, h4, h5, h6, h7, h8, h9, h10, h11, h12, h13, h14, h15, h16, h17, h18, h19, not_le.mpr hK, if_true, if_false]
                                          rw [hr]
                                          refine ⟨by norm_num [Web.standardFuseSizes], fun _ => h19, ?_,
                                            fun hlt => absurd h1 (not_le.mpr hlt)⟩
                                          intro f hf hfm
                                          simp only [Web.standardFuseSizes] at hf
                                          fin_cases hf <;> linarith only [hfm, hK]
                                        · have hr : (Web.findRecommendedFuse amp (85/100)).fuseSize = 300 := by
                                            simp only [Web.findRecommendedFuse, Web.findFuseLoop, Web.standardFuseSizes,
                                              List.headI, h1, h2, h3, h4, h5, h6, h7, h8, h9, h10, h11, h12, h13, h14, h15, h16, h17, h18, h19, h20, if_true, if_false]
                                          rw [hr]
                                          refine ⟨by norm_num [Web.standardFuseSizes], fun _ => h20, ?_,
                                            fun hlt => absurd h1 (not_le.mpr hlt)⟩
                                          intro f hf hfm
                                          simp only [Web.standardFuseSizes] at hf
                                          fin_cases hf <;> linarith only [hfm]

/-- Witness for C5: at ampacity 100 A (limit 85 A) the recommendation is
at least 40 A, by the largest-qualifying property at fuse 40. -/
theorem recommendFuseWitness :
    (40:ℚ) ≤ (Web.findRecommendedFuse 100 (85/100)).fuseSize :=
  (recommendFuseLargestQualifying 100).2.2.1 40 (by norm_num [Web.standardFuseSizes])
    (by norm_num)
